import Mathlib

/-!
Verification of the foreign-scene conversion layer of the Assimp-rs
repository: the `aiPostProcessSteps` bitset (src/postprocess.rs) and the two
scene-to-mesh conversion operations `aiImportFileToMesh` and
`aiImportFileToMeshes` (src/cimport.rs).

The foreign library (C Assimp) is modelled as an oracle: an
`Option (aiScene α)` standing for the pointer `aiImportFile` returns
(`none` = null handle).  Foreign memory reads through counted raw pointers
are modelled over Lean lists; a read outside the tracked array yields an
unspecified junk value (`default`), matching the fact that the source
dereferences raw pointers without bounds checks.  `u32` arithmetic is
modelled on `Nat` with an explicit reduction modulo 2^32 at each machine
operation.  Per-vertex scalar data (C floats) is an abstract inhabited type
`α`: the conversion layer only copies these values, never computes with
them.  Each conversion is written as a function returning its result
together with a trace of the foreign-interface events it performs
(import call, release call, UV-channel reads), so that lifecycle and
memory-safety statements are about the trace.
-/

/-- Reduction of a machine `u32` operation's mathematical result to the
32-bit range (release-mode wrapping semantics of the source's `u32` adds). -/
def wrap32 (n : Nat) : Nat := n % 4294967296

/-- Bitset of post-processing steps, mirroring `struct aiPostProcessSteps
{ value: u32 }` of src/postprocess.rs. -/
structure aiPostProcessSteps where
  value : Nat
deriving DecidableEq

/-- Constant `None` (0x0) of src/postprocess.rs. -/
def aiPostProcessSteps.None : aiPostProcessSteps := ⟨0x0⟩

/-- Constant `CalcTangentSpace` (0x1). -/
def aiPostProcessSteps.CalcTangentSpace : aiPostProcessSteps := ⟨0x1⟩

/-- Constant `JoinIdenticalVertices` (0x2). -/
def aiPostProcessSteps.JoinIdenticalVertices : aiPostProcessSteps := ⟨0x2⟩

/-- Constant `MakeLeftHanded` (0x4). -/
def aiPostProcessSteps.MakeLeftHanded : aiPostProcessSteps := ⟨0x4⟩

/-- Constant `Triangulate` (0x8). -/
def aiPostProcessSteps.Triangulate : aiPostProcessSteps := ⟨0x8⟩

/-- Constant `RemoveComponent` (0x10). -/
def aiPostProcessSteps.RemoveComponent : aiPostProcessSteps := ⟨0x10⟩

/-- Constant `GenNormals` (0x20). -/
def aiPostProcessSteps.GenNormals : aiPostProcessSteps := ⟨0x20⟩

/-- Constant `GenSmoothNormals` (0x40). -/
def aiPostProcessSteps.GenSmoothNormals : aiPostProcessSteps := ⟨0x40⟩

/-- Constant `SplitLargeMeshes` (0x80). -/
def aiPostProcessSteps.SplitLargeMeshes : aiPostProcessSteps := ⟨0x80⟩

/-- Constant `PreTransformVertices` (0x100). -/
def aiPostProcessSteps.PreTransformVertices : aiPostProcessSteps := ⟨0x100⟩

/-- Constant `LimitBoneWeights` (0x200). -/
def aiPostProcessSteps.LimitBoneWeights : aiPostProcessSteps := ⟨0x200⟩

/-- Constant `ValidateDataStructure` (0x400). -/
def aiPostProcessSteps.ValidateDataStructure : aiPostProcessSteps := ⟨0x400⟩

/-- Constant `ImproveCacheLocality` (0x800). -/
def aiPostProcessSteps.ImproveCacheLocality : aiPostProcessSteps := ⟨0x800⟩

/-- Constant `RemoveRedundantMaterials` (0x1000). -/
def aiPostProcessSteps.RemoveRedundantMaterials : aiPostProcessSteps := ⟨0x1000⟩

/-- Constant `FixInfacingNormals` (0x2000). -/
def aiPostProcessSteps.FixInfacingNormals : aiPostProcessSteps := ⟨0x2000⟩

/-- Constant `PopulateArmatureData` (0x4000). -/
def aiPostProcessSteps.PopulateArmatureData : aiPostProcessSteps := ⟨0x4000⟩

/-- Constant `SortByPType` (0x8000). -/
def aiPostProcessSteps.SortByPType : aiPostProcessSteps := ⟨0x8000⟩

/-- Constant `FindDegenerates` (0x10000). -/
def aiPostProcessSteps.FindDegenerates : aiPostProcessSteps := ⟨0x10000⟩

/-- Constant `FindInvalidData` (0x20000). -/
def aiPostProcessSteps.FindInvalidData : aiPostProcessSteps := ⟨0x20000⟩

/-- Constant `GenUVCoords` (0x40000). -/
def aiPostProcessSteps.GenUVCoords : aiPostProcessSteps := ⟨0x40000⟩

/-- Constant `TransformUVCoords` (0x80000). -/
def aiPostProcessSteps.TransformUVCoords : aiPostProcessSteps := ⟨0x80000⟩

/-- Constant `FindInstances` (0x100000). -/
def aiPostProcessSteps.FindInstances : aiPostProcessSteps := ⟨0x100000⟩

/-- Constant `OptimizeMeshes` (0x200000). -/
def aiPostProcessSteps.OptimizeMeshes : aiPostProcessSteps := ⟨0x200000⟩

/-- Constant `OptimizeGraph` (0x400000). -/
def aiPostProcessSteps.OptimizeGraph : aiPostProcessSteps := ⟨0x400000⟩

/-- Constant `FlipUVs` (0x800000). -/
def aiPostProcessSteps.FlipUVs : aiPostProcessSteps := ⟨0x800000⟩

/-- Constant `FlipWindingOrder` (0x1000000). -/
def aiPostProcessSteps.FlipWindingOrder : aiPostProcessSteps := ⟨0x1000000⟩

/-- Constant `SplitByBoneCount` (0x2000000). -/
def aiPostProcessSteps.SplitByBoneCount : aiPostProcessSteps := ⟨0x2000000⟩

/-- Constant `Debone` (0x4000000). -/
def aiPostProcessSteps.Debone : aiPostProcessSteps := ⟨0x4000000⟩

/-- Constant `GlobalScale` (0x8000000). -/
def aiPostProcessSteps.GlobalScale : aiPostProcessSteps := ⟨0x8000000⟩

/-- Constant `EmbedTextures` (0x10000000). -/
def aiPostProcessSteps.EmbedTextures : aiPostProcessSteps := ⟨0x10000000⟩

/-- Constant `ForceGenNormals` (0x20000000). -/
def aiPostProcessSteps.ForceGenNormals : aiPostProcessSteps := ⟨0x20000000⟩

/-- Constant `DropNormals` (0x40000000). -/
def aiPostProcessSteps.DropNormals : aiPostProcessSteps := ⟨0x40000000⟩

/-- Constant `GenBoundingBoxes` (0x80000000). -/
def aiPostProcessSteps.GenBoundingBoxes : aiPostProcessSteps := ⟨0x80000000⟩

/-- Mirror of `impl Default for aiPostProcessSteps` (yields `Self::None`). -/
instance : Inhabited aiPostProcessSteps := ⟨aiPostProcessSteps.None⟩

/-- Mirror of `impl BitOr for aiPostProcessSteps`: bitwise OR of the values. -/
def aiPostProcessSteps.bitor (a b : aiPostProcessSteps) : aiPostProcessSteps :=
  ⟨a.value ||| b.value⟩

/-- Mirror of `impl BitAnd for aiPostProcessSteps`: bitwise AND of the values. -/
def aiPostProcessSteps.bitand (a b : aiPostProcessSteps) : aiPostProcessSteps :=
  ⟨a.value &&& b.value⟩

/-- Mirror of `aiPostProcessSteps::set`: `self & flag == flag`. -/
def aiPostProcessSteps.set (a flag : aiPostProcessSteps) : Bool :=
  decide (a.bitand flag = flag)

/-- Table of the named flags in their declaration order, paired with the
name each one's block of `impl Debug for aiPostProcessSteps` writes. -/
def aiPostProcessSteps.flagTable : List (aiPostProcessSteps × String) :=
  [(.CalcTangentSpace, "CalcTangentSpace"),
   (.JoinIdenticalVertices, "JoinIdenticalVertices"),
   (.MakeLeftHanded, "MakeLeftHanded"),
   (.Triangulate, "Triangulate"),
   (.RemoveComponent, "RemoveComponent"),
   (.GenNormals, "GenNormals"),
   (.GenSmoothNormals, "GenSmoothNormals"),
   (.SplitLargeMeshes, "SplitLargeMeshes"),
   (.PreTransformVertices, "PreTransformVertices"),
   (.LimitBoneWeights, "LimitBoneWeights"),
   (.ValidateDataStructure, "ValidateDataStructure"),
   (.ImproveCacheLocality, "ImproveCacheLocality"),
   (.RemoveRedundantMaterials, "RemoveRedundantMaterials"),
   (.FixInfacingNormals, "FixInfacingNormals"),
   (.PopulateArmatureData, "PopulateArmatureData"),
   (.SortByPType, "SortByPType"),
   (.FindDegenerates, "FindDegenerates"),
   (.FindInvalidData, "FindInvalidData"),
   (.GenUVCoords, "GenUVCoords"),
   (.TransformUVCoords, "TransformUVCoords"),
   (.FindInstances, "FindInstances"),
   (.OptimizeMeshes, "OptimizeMeshes"),
   (.OptimizeGraph, "OptimizeGraph"),
   (.FlipUVs, "FlipUVs"),
   (.FlipWindingOrder, "FlipWindingOrder"),
   (.SplitByBoneCount, "SplitByBoneCount"),
   (.Debone, "Debone"),
   (.GlobalScale, "GlobalScale"),
   (.EmbedTextures, "EmbedTextures"),
   (.ForceGenNormals, "ForceGenNormals"),
   (.DropNormals, "DropNormals"),
   (.GenBoundingBoxes, "GenBoundingBoxes")]

/-- One block of the `Debug` impl: if the flag is present, write the
separator (unless this is the first flag written) and then the flag's name.
The accumulator is (text written so far, `first`).  The source's last block
(`GenBoundingBoxes`) omits the `first = false` update, which cannot change
the text written. -/
def aiPostProcessSteps.fmtStep (s : aiPostProcessSteps) (acc : String × Bool)
    (p : aiPostProcessSteps × String) : String × Bool :=
  if s.set p.1 then ((if acc.2 then acc.1 else acc.1 ++ " | ") ++ p.2, false) else acc

/-- Mirror of `impl Debug for aiPostProcessSteps`: the string the formatter
receives. -/
def aiPostProcessSteps.debugFmt (s : aiPostProcessSteps) : String :=
  if s = .None then "None"
  else (aiPostProcessSteps.flagTable.foldl (aiPostProcessSteps.fmtStep s) ("", true)).1

/-- Names of the named flags present in a set, in declaration order. -/
def aiPostProcessSteps.presentNames (s : aiPostProcessSteps) : List String :=
  (aiPostProcessSteps.flagTable.filter (fun p => s.set p.1)).map Prod.snd

/-- Joining of a nonempty tail of names: each prefixed by the separator. -/
def joinTail : List String → String
  | [] => ""
  | n :: t => " | " ++ n ++ joinTail t

/-- Joining a list of names with the separator of the `Debug` impl. -/
def joinSep : List String → String
  | [] => ""
  | [x] => x
  | x :: y :: t => x ++ " | " ++ joinSep (y :: t)

/-- Modelled from the spec: a 3-component vector of per-vertex data
(`aiVector3D` of src/data/vector3.rs, a file the repository references but
does not ship; the spec describes it as a 3-component float vector).  The
scalar type is abstract: the conversion layer only copies scalars. -/
structure aiVector3D (α : Type) where
  x : α
  y : α
  z : α
deriving DecidableEq

/-- Modelled from the spec: the `xy` accessor used by the conversions, which
keeps a UV vector's first two components and drops the third. -/
def aiVector3D.xy {α : Type} (v : aiVector3D α) : α × α := (v.x, v.y)

instance {α : Type} [Inhabited α] : Inhabited (aiVector3D α) :=
  ⟨⟨default, default, default⟩⟩

/-- Mirror of `aiFace` (src/data/face.rs): an index count and the indices
the face's `mIndices` pointer addresses (`c_uint` values, as `Nat`). -/
structure aiFace where
  mNumIndices : Nat
  mIndices : List Nat
deriving DecidableEq

instance : Inhabited aiFace := ⟨⟨0, []⟩⟩

/-- Mirror of the fields of `aiMesh` (src/data/mesh.rs) the conversion layer
reads: vertex count, face count, the positions array, the nullable normals
array, the 8 nullable UV-channel arrays, and the faces array. -/
structure aiMesh (α : Type) where
  mNumVertices : Nat
  mNumFaces : Nat
  mVertices : List (aiVector3D α)
  mNormals : Option (List (aiVector3D α))
  mTextureCoords : Fin 8 → Option (List (aiVector3D α))
  mFaces : List aiFace

instance {α : Type} [Inhabited α] : Inhabited (aiMesh α) :=
  ⟨⟨0, 0, [], none, fun _ => none, []⟩⟩

/-- Mirror of the fields of `aiScene` (src/data/scene.rs) the conversion
layer reads: the mesh count and the array of mesh records. -/
structure aiScene (α : Type) where
  mNumMeshes : Nat
  mMeshes : List (aiMesh α)

/-- Read of `*mesh.mVertices.add(i)`: past the tracked array the value is
unspecified junk. -/
def readVertex {α : Type} [Inhabited α] (m : aiMesh α) (i : Nat) : aiVector3D α :=
  m.mVertices.getD i default

/-- Read of `*mesh.mNormals.add(i)`: performed without a null check in the
source, so a null array also yields unspecified junk here. -/
def readNormal {α : Type} [Inhabited α] (m : aiMesh α) (i : Nat) : aiVector3D α :=
  (m.mNormals.getD []).getD i default

/-- Definedness of the read `*mesh.mTextureCoords[0].add(i)`: `none` when
UV channel 0 is null or the index is past the channel's array. -/
def uvRead0 {α : Type} (m : aiMesh α) (i : Nat) : Option (aiVector3D α) :=
  match m.mTextureCoords 0 with
  | none => none
  | some l => l.get? i

/-- Value the conversion obtains from `*mesh.mTextureCoords[0].add(i)`:
the tracked value when the read is defined, unspecified junk otherwise. -/
def readUV0 {α : Type} [Inhabited α] (m : aiMesh α) (i : Nat) : aiVector3D α :=
  (uvRead0 m i).getD default

/-- Read of `&*mesh.mFaces.add(i)`. -/
def faceRecAt {α : Type} (m : aiMesh α) (i : Nat) : aiFace :=
  m.mFaces.getD i default

/-- Read of `*face.mIndices.add(k)`: past the tracked indices the value is
unspecified junk. -/
def readIdx (f : aiFace) (k : Nat) : Nat := f.mIndices.getD k 0

/-- Read of `&*(*(*ptr).mMeshes.add(j))`. -/
def meshAt {α : Type} [Inhabited α] (s : aiScene α) (j : Nat) : aiMesh α :=
  s.mMeshes.getD j default

/-- Submesh records in the order the loops `for j in 0..mesh_count` visit
them (`mesh_count` is the scene's `mNumMeshes` field). -/
def sceneMeshes {α : Type} [Inhabited α] (s : aiScene α) : List (aiMesh α) :=
  (List.range s.mNumMeshes).map (meshAt s)

/-- Positions pushed onto `pts` by the vertex loop of one submesh. -/
def ptsOf {α : Type} [Inhabited α] (m : aiMesh α) : List (aiVector3D α) :=
  (List.range m.mNumVertices).map (readVertex m)

/-- Normals pushed onto `normals` by the vertex loop of one submesh. -/
def normalsOf {α : Type} [Inhabited α] (m : aiMesh α) : List (aiVector3D α) :=
  (List.range m.mNumVertices).map (readNormal m)

/-- UV pairs pushed by the vertex loop of one submesh:
`(*mesh.mTextureCoords[0].add(i)).xy()`. -/
def uvsOf {α : Type} [Inhabited α] (m : aiMesh α) : List (α × α) :=
  (List.range m.mNumVertices).map (fun i => (readUV0 m i).xy)

/-- Modelled from the spec: a triangular face of the owned output mesh
(`MeshFace` of the external glui crate), three vertex indices. -/
structure MeshFace where
  a : Nat
  b : Nat
  c : Nat
deriving DecidableEq

/-- Constructor `MeshFace::new(a, b, c)`. -/
def MeshFace.new (a b c : Nat) : MeshFace := ⟨a, b, c⟩

/-- Modelled from the spec: the owned output mesh (`Mesh` of the external
glui crate as constructed by src/cimport.rs): required positions, optional
normals, triangular faces, optional 2D UV coordinates. -/
structure Mesh (α : Type) where
  points : List (aiVector3D α)
  normals : Option (List (aiVector3D α))
  faces : List MeshFace
  uvcoords : Option (List (α × α))
deriving DecidableEq

/-- Faces pushed by the face loop of one submesh in `aiImportFileToMeshes`:
indices copied as read, no offset added. -/
def localFaces {α : Type} [Inhabited α] (m : aiMesh α) : List MeshFace :=
  (List.range m.mNumFaces).map (fun i =>
    MeshFace.new (readIdx (faceRecAt m i) 0) (readIdx (faceRecAt m i) 1)
      (readIdx (faceRecAt m i) 2))

/-- Faces pushed by the face loop of one submesh in `aiImportFileToMesh`:
each index is the `u32` sum of the read index and `ind_base`. -/
def rebasedFaces {α : Type} [Inhabited α] (m : aiMesh α) (base : Nat) : List MeshFace :=
  (List.range m.mNumFaces).map (fun i =>
    MeshFace.new (wrap32 (readIdx (faceRecAt m i) 0 + base))
      (wrap32 (readIdx (faceRecAt m i) 1 + base))
      (wrap32 (readIdx (faceRecAt m i) 2 + base)))

/-- Loop `for j in 0..mesh_count` of `aiImportFileToMesh`, carrying the
running `ind_base : u32`: accumulated positions, normals, UV pairs and
rebased faces.  `ind_base += vertex_count as u32` is the wrapping `u32`
addition. -/
def mergeSubmeshes {α : Type} [Inhabited α] :
    List (aiMesh α) → Nat →
      List (aiVector3D α) × List (aiVector3D α) × List (α × α) × List MeshFace
  | [], _ => ([], [], [], [])
  | m :: t, base =>
    let rest := mergeSubmeshes t (wrap32 (base + m.mNumVertices))
    (ptsOf m ++ rest.1, normalsOf m ++ rest.2.1, uvsOf m ++ rest.2.2.1,
      rebasedFaces m base ++ rest.2.2.2)

/-- Foreign-interface events a conversion performs, in order: the import
call (with the flag value passed and whether it succeeded), the release
call (with whether the handle is null), and each read of a submesh's UV
channel 0 (submesh position, vertex index, whether the channel is
non-null). -/
inductive FfiEvent where
  | importCall (flags : Nat) (success : Bool)
  | releaseCall (null : Bool)
  | uvChannelRead (submesh vertex : Nat) (channelPresent : Bool)
deriving DecidableEq

/-- UV-channel-0 read events of one submesh's vertex loop. -/
def uvReadEventsMesh {α : Type} (j : Nat) (m : aiMesh α) : List FfiEvent :=
  (List.range m.mNumVertices).map
    (fun i => FfiEvent.uvChannelRead j i (m.mTextureCoords 0).isSome)

/-- UV-channel-0 read events of a whole scene traversal, in loop order. -/
def uvReadEvents {α : Type} [Inhabited α] (s : aiScene α) : List FfiEvent :=
  (List.range s.mNumMeshes).flatMap (fun j => uvReadEventsMesh j (meshAt s j))

/-- Flag set `aiImportFileToMesh` passes to `aiImportFile`:
`Triangulate | GenSmoothNormals | GenUVCoords | FlipUVs`. -/
def aiImportFileToMeshSteps : aiPostProcessSteps :=
  ((aiPostProcessSteps.Triangulate.bitor .GenSmoothNormals).bitor
    .GenUVCoords).bitor .FlipUVs

/-- Flag set `aiImportFileToMeshes` passes to `aiImportFile`:
`Triangulate | GenSmoothNormals | GenUVCoords`. -/
def aiImportFileToMeshesSteps : aiPostProcessSteps :=
  (aiPostProcessSteps.Triangulate.bitor .GenSmoothNormals).bitor .GenUVCoords

/-- Mirror of `aiImportFileToMesh` (src/cimport.rs lines 55-108) with its
foreign-interface trace.  The oracle `imp` is the pointer `aiImportFile`
returns for the requested file and `aiImportFileToMeshSteps`; `none` is the
null failure handle, on which the source returns `None` at once (before the
unsafe block and before the `aiReleaseImport` call).  On a non-null handle
the source walks the submeshes with a running `ind_base`, releases the
scene, and returns the merged mesh with `normals` and `uvcoords` present. -/
def aiImportFileToMeshTr {α : Type} [Inhabited α] (imp : Option (aiScene α)) :
    Option (Mesh α) × List FfiEvent :=
  match imp with
  | none => (none, [FfiEvent.importCall aiImportFileToMeshSteps.value false])
  | some s =>
    let r := mergeSubmeshes (sceneMeshes s) 0
    (some { points := r.1, normals := some r.2.1, faces := r.2.2.2,
            uvcoords := some r.2.2.1 },
      FfiEvent.importCall aiImportFileToMeshSteps.value true ::
        (uvReadEvents s ++ [FfiEvent.releaseCall false]))

/-- Result of `aiImportFileToMesh` alone. -/
def aiImportFileToMesh {α : Type} [Inhabited α] (imp : Option (aiScene α)) :
    Option (Mesh α) :=
  (aiImportFileToMeshTr imp).1

/-- Output mesh one iteration of `aiImportFileToMeshes` pushes for one
submesh: indices are submesh-local (the diagnostic min/max index fold of
the source is discarded and has no effect on the result). -/
def meshFromSubmesh {α : Type} [Inhabited α] (m : aiMesh α) : Mesh α :=
  { points := ptsOf m, normals := some (normalsOf m), faces := localFaces m,
    uvcoords := some (uvsOf m) }

/-- Mirror of `aiImportFileToMeshes` (src/cimport.rs lines 110-172) with its
foreign-interface trace: same null-handle early return (again before any
`aiReleaseImport` call), otherwise one output mesh per submesh in array
order, then the release. -/
def aiImportFileToMeshesTr {α : Type} [Inhabited α] (imp : Option (aiScene α)) :
    Option (List (Mesh α)) × List FfiEvent :=
  match imp with
  | none => (none, [FfiEvent.importCall aiImportFileToMeshesSteps.value false])
  | some s =>
    (some ((sceneMeshes s).map meshFromSubmesh),
      FfiEvent.importCall aiImportFileToMeshesSteps.value true ::
        (uvReadEvents s ++ [FfiEvent.releaseCall false]))

/-- Result of `aiImportFileToMeshes` alone. -/
def aiImportFileToMeshes {α : Type} [Inhabited α] (imp : Option (aiScene α)) :
    Option (List (Mesh α)) :=
  (aiImportFileToMeshesTr imp).1

/-- Number of `aiReleaseImport` invocations recorded in a trace. -/
def releaseCount (t : List FfiEvent) : Nat :=
  t.countP (fun e => match e with | FfiEvent.releaseCall _ => true | _ => false)

/-- Sum of the submesh vertex counts of a list of submesh records. -/
def sumVC {α : Type} (ms : List (aiMesh α)) : Nat :=
  (ms.map (fun m => m.mNumVertices)).sum

/-- Spec-side shift of a face's three indices by an offset, with plain
(unbounded) addition. -/
def shiftFace (d : Nat) (f : MeshFace) : MeshFace := ⟨f.a + d, f.b + d, f.c + d⟩

/-- Spec-side merged face list: a running vertex-index offset starts at the
given value and increases by each submesh's vertex count after that submesh
is processed; each submesh contributes its local faces shifted by the
offset current for it. -/
def specMergeFaces {α : Type} [Inhabited α] : List (aiMesh α) → Nat → List MeshFace
  | [], _ => []
  | m :: t, off => (localFaces m).map (shiftFace off) ++ specMergeFaces t (off + m.mNumVertices)

/-- Wellformedness the external library's triangulation step guarantees:
every submesh-local face index read by the conversions is strictly below
the owning submesh's vertex count. -/
def FacesInBounds {α : Type} (m : aiMesh α) : Prop :=
  ∀ i < m.mNumFaces, ∀ k < 3, readIdx (faceRecAt m i) k < m.mNumVertices

instance {α : Type} (m : aiMesh α) : Decidable (FacesInBounds m) := by
  unfold FacesInBounds; infer_instance

/-- Scene containing a single submesh record. -/
def singleScene {α : Type} (m : aiMesh α) : aiScene α := ⟨1, [m]⟩


/-- Merged mesh `aiImportFileToMesh` returns for a non-null scene handle. -/
def mergedMeshOf {α : Type} [Inhabited α] (s : aiScene α) : Mesh α :=
  { points := (mergeSubmeshes (sceneMeshes s) 0).1,
    normals := some (mergeSubmeshes (sceneMeshes s) 0).2.1,
    faces := (mergeSubmeshes (sceneMeshes s) 0).2.2.2,
    uvcoords := some (mergeSubmeshes (sceneMeshes s) 0).2.2.1 }

/-- Example submesh with 4 vertices and no faces (spec's `[4, 6, 3]` scene). -/
def exMesh463a : aiMesh Unit := ⟨4, 0, [], none, fun _ => none, []⟩

/-- Example submesh with 6 vertices and the face `[0, 1, 2]`. -/
def exMesh463b : aiMesh Unit := ⟨6, 1, [], none, fun _ => none, [⟨3, [0, 1, 2]⟩]⟩

/-- Example submesh with 3 vertices and the face `[2, 0, 1]`. -/
def exMesh463c : aiMesh Unit := ⟨3, 1, [], none, fun _ => none, [⟨3, [2, 0, 1]⟩]⟩

/-- Example scene with submesh vertex counts `[4, 6, 3]`, the spec's worked
example. -/
def exScene463 : aiScene Unit := ⟨3, [exMesh463a, exMesh463b, exMesh463c]⟩

/-- Example submesh with one vertex and no UV channel at all. -/
def exMeshNoUV : aiMesh Unit := ⟨1, 0, [⟨(), (), ()⟩], none, fun _ => none, []⟩

/-- Example scene whose only submesh has no UV channel 0. -/
def exSceneNoUV : aiScene Unit := singleScene exMeshNoUV

/-! Helper lemmas. -/

theorem mergeSubmeshes_nil {α : Type} [Inhabited α] (base : Nat) :
    mergeSubmeshes ([] : List (aiMesh α)) base = ([], [], [], []) := rfl

theorem mergeSubmeshes_cons {α : Type} [Inhabited α] (m : aiMesh α)
    (t : List (aiMesh α)) (base : Nat) :
    mergeSubmeshes (m :: t) base =
      (ptsOf m ++ (mergeSubmeshes t (wrap32 (base + m.mNumVertices))).1,
       normalsOf m ++ (mergeSubmeshes t (wrap32 (base + m.mNumVertices))).2.1,
       uvsOf m ++ (mergeSubmeshes t (wrap32 (base + m.mNumVertices))).2.2.1,
       rebasedFaces m base ++ (mergeSubmeshes t (wrap32 (base + m.mNumVertices))).2.2.2) := rfl

theorem ptsOf_length {α : Type} [Inhabited α] (m : aiMesh α) :
    (ptsOf m).length = m.mNumVertices := by
  simp [ptsOf]

theorem normalsOf_length {α : Type} [Inhabited α] (m : aiMesh α) :
    (normalsOf m).length = m.mNumVertices := by
  simp [normalsOf]

theorem uvsOf_length {α : Type} [Inhabited α] (m : aiMesh α) :
    (uvsOf m).length = m.mNumVertices := by
  simp [uvsOf]

theorem sumVC_cons {α : Type} (m : aiMesh α) (t : List (aiMesh α)) :
    sumVC (m :: t) = m.mNumVertices + sumVC t := by
  simp [sumVC]

theorem mergeSubmeshes_pts {α : Type} [Inhabited α] (ms : List (aiMesh α)) (base : Nat) :
    (mergeSubmeshes ms base).1 = ms.flatMap ptsOf := by
  induction ms generalizing base with
  | nil => rfl
  | cons m t ih => simp [mergeSubmeshes_cons, ih]

theorem mergeSubmeshes_normals {α : Type} [Inhabited α] (ms : List (aiMesh α)) (base : Nat) :
    (mergeSubmeshes ms base).2.1 = ms.flatMap normalsOf := by
  induction ms generalizing base with
  | nil => rfl
  | cons m t ih => simp [mergeSubmeshes_cons, ih]

theorem mergeSubmeshes_uvs {α : Type} [Inhabited α] (ms : List (aiMesh α)) (base : Nat) :
    (mergeSubmeshes ms base).2.2.1 = ms.flatMap uvsOf := by
  induction ms generalizing base with
  | nil => rfl
  | cons m t ih => simp [mergeSubmeshes_cons, ih]

theorem mergeSubmeshes_pts_length {α : Type} [Inhabited α] (ms : List (aiMesh α)) (base : Nat) :
    (mergeSubmeshes ms base).1.length = sumVC ms := by
  induction ms generalizing base with
  | nil => rfl
  | cons m t ih => simp [mergeSubmeshes_cons, ptsOf_length, sumVC_cons, ih]

theorem mergeSubmeshes_normals_length {α : Type} [Inhabited α] (ms : List (aiMesh α)) (base : Nat) :
    (mergeSubmeshes ms base).2.1.length = sumVC ms := by
  induction ms generalizing base with
  | nil => rfl
  | cons m t ih => simp [mergeSubmeshes_cons, normalsOf_length, sumVC_cons, ih]

theorem mergeSubmeshes_uvs_length {α : Type} [Inhabited α] (ms : List (aiMesh α)) (base : Nat) :
    (mergeSubmeshes ms base).2.2.1.length = sumVC ms := by
  induction ms generalizing base with
  | nil => rfl
  | cons m t ih => simp [mergeSubmeshes_cons, uvsOf_length, sumVC_cons, ih]

theorem wrap32_eq_of_lt {n : Nat} (h : n < 4294967296) : wrap32 n = n :=
  Nat.mod_eq_of_lt h

theorem wrap32_lt (n : Nat) : wrap32 n < 4294967296 :=
  Nat.mod_lt n (by norm_num)

theorem rebasedFaces_eq_shift {α : Type} [Inhabited α] (m : aiMesh α) (base : Nat)
    (hfb : FacesInBounds m) (hle : base + m.mNumVertices ≤ 4294967296) :
    rebasedFaces m base = (localFaces m).map (shiftFace base) := by
  unfold rebasedFaces localFaces
  rw [List.map_map]
  refine List.map_congr_left ?_
  intro i hi
  rw [List.mem_range] at hi
  have hidx : ∀ k, k < 3 → readIdx (faceRecAt m i) k + base < 4294967296 := by
    intro k hk
    have h1 := hfb i hi k hk
    omega
  simp only [Function.comp, shiftFace, MeshFace.new]
  rw [wrap32_eq_of_lt (hidx 0 (by norm_num)), wrap32_eq_of_lt (hidx 1 (by norm_num)),
    wrap32_eq_of_lt (hidx 2 (by norm_num))]

theorem mergeSubmeshes_faces_spec {α : Type} [Inhabited α] (ms : List (aiMesh α)) (base : Nat)
    (hb : base + sumVC ms < 4294967296) (hfb : ∀ m ∈ ms, FacesInBounds m) :
    (mergeSubmeshes ms base).2.2.2 = specMergeFaces ms base := by
  induction ms generalizing base with
  | nil => rfl
  | cons m t ih =>
    rw [sumVC_cons] at hb
    have hvc : base + m.mNumVertices ≤ 4294967296 := by omega
    have hw : wrap32 (base + m.mNumVertices) = base + m.mNumVertices :=
      wrap32_eq_of_lt (by omega)
    rw [mergeSubmeshes_cons]
    show rebasedFaces m base ++ (mergeSubmeshes t (wrap32 (base + m.mNumVertices))).2.2.2 = _
    rw [hw, specMergeFaces,
      rebasedFaces_eq_shift m base (hfb m (List.mem_cons_self m t)) hvc,
      ih (base + m.mNumVertices) (by omega) (fun x hx => hfb x (List.mem_cons_of_mem m hx))]

theorem mergeSubmeshes_faces_lt32 {α : Type} [Inhabited α] (ms : List (aiMesh α)) (base : Nat) :
    ∀ f ∈ (mergeSubmeshes ms base).2.2.2,
      f.a < 4294967296 ∧ f.b < 4294967296 ∧ f.c < 4294967296 := by
  induction ms generalizing base with
  | nil => intro f hf; simp [mergeSubmeshes_nil] at hf
  | cons m t ih =>
    intro f hf
    rw [mergeSubmeshes_cons] at hf
    rcases List.mem_append.1 hf with hf | hf
    · unfold rebasedFaces at hf
      rcases List.mem_map.1 hf with ⟨i, _, rfl⟩
      exact ⟨wrap32_lt _, wrap32_lt _, wrap32_lt _⟩
    · exact ih (wrap32 (base + m.mNumVertices)) f hf

theorem localFaces_bound {α : Type} [Inhabited α] (m : aiMesh α) (hfb : FacesInBounds m) :
    ∀ f ∈ localFaces m,
      f.a < m.mNumVertices ∧ f.b < m.mNumVertices ∧ f.c < m.mNumVertices := by
  intro f hf
  unfold localFaces at hf
  rcases List.mem_map.1 hf with ⟨i, hi, rfl⟩
  rw [List.mem_range] at hi
  exact ⟨hfb i hi 0 (by norm_num), hfb i hi 1 (by norm_num), hfb i hi 2 (by norm_num)⟩

theorem specMergeFaces_bound {α : Type} [Inhabited α] (ms : List (aiMesh α)) (base : Nat)
    (hfb : ∀ m ∈ ms, FacesInBounds m) :
    ∀ f ∈ specMergeFaces ms base,
      f.a < base + sumVC ms ∧ f.b < base + sumVC ms ∧ f.c < base + sumVC ms := by
  induction ms generalizing base with
  | nil => intro f hf; simp [specMergeFaces] at hf
  | cons m t ih =>
    intro f hf
    rw [specMergeFaces] at hf
    rw [sumVC_cons]
    rcases List.mem_append.1 hf with hf | hf
    · rcases List.mem_map.1 hf with ⟨g, hg, rfl⟩
      have hb := localFaces_bound m (hfb m (List.mem_cons_self m t)) g hg
      simp only [shiftFace]
      omega
    · have := ih (base + m.mNumVertices) (fun x hx => hfb x (List.mem_cons_of_mem m hx)) f hf
      omega

theorem aiPostProcessSteps.set_eq_true_iff (a b : aiPostProcessSteps) :
    a.set b = true ↔ a.value &&& b.value = b.value := by
  cases a with
  | mk x =>
    cases b with
    | mk y =>
      simp [aiPostProcessSteps.set, aiPostProcessSteps.bitand, aiPostProcessSteps.mk.injEq]

theorem aiPostProcessSteps.land_eq_self_iff (x y : Nat) :
    x &&& y = y ↔ ∀ i, y.testBit i = true → x.testBit i = true := by
  constructor
  · intro h i hy
    have h2 := congrArg (fun n => n.testBit i) h
    simp only [Nat.testBit_land, hy, Bool.and_true] at h2
    exact h2
  · intro h
    refine Nat.eq_of_testBit_eq ?_
    intro i
    rw [Nat.testBit_land]
    cases hy : y.testBit i with
    | false => simp
    | true => simp [h i hy]

theorem aiPostProcessSteps.land_two_pow_iff (x k : Nat) :
    x &&& 2 ^ k = 2 ^ k ↔ x.testBit k = true := by
  rw [Nat.and_two_pow]
  cases hx : x.testBit k with
  | false =>
    simp only [Bool.toNat_false, Nat.zero_mul, Bool.false_eq_true, iff_false]
    intro hcontra
    exact absurd hcontra.symm (Nat.ne_of_gt (Nat.pos_pow_of_pos k (by norm_num)))
  | true => simp

theorem aiPostProcessSteps.set_two_pow (x k : Nat) :
    (⟨x⟩ : aiPostProcessSteps).set ⟨2 ^ k⟩ = x.testBit k := by
  rw [Bool.eq_iff_iff, aiPostProcessSteps.set_eq_true_iff]
  exact aiPostProcessSteps.land_two_pow_iff x k

theorem aiPostProcessSteps.set_of_pow2_or (a b f : aiPostProcessSteps)
    (h : ∃ k, f.value = 2 ^ k) :
    (a.bitor b).set f = (a.set f || b.set f) := by
  obtain ⟨k, hk⟩ := h
  cases a with
  | mk x =>
    cases b with
    | mk y =>
      cases f with
      | mk v =>
        simp only at hk
        subst hk
        show ((⟨x⟩ : aiPostProcessSteps).bitor ⟨y⟩).set ⟨2 ^ k⟩ = _
        have hor : (⟨x⟩ : aiPostProcessSteps).bitor ⟨y⟩ = ⟨x ||| y⟩ := rfl
        rw [hor, aiPostProcessSteps.set_two_pow, aiPostProcessSteps.set_two_pow,
          aiPostProcessSteps.set_two_pow, Nat.testBit_lor]

theorem aiPostProcessSteps.flagTable_pow2 :
    ∀ p ∈ aiPostProcessSteps.flagTable, ∃ k, k < 32 ∧ p.1.value = 2 ^ k := by
  decide

theorem filter_flag_cons_pos (s : aiPostProcessSteps) (p : aiPostProcessSteps × String)
    (t : List (aiPostProcessSteps × String)) (h : s.set p.1 = true) :
    (p :: t).filter (fun q => s.set q.1) = p :: t.filter (fun q => s.set q.1) := by
  simp [List.filter_cons, h]

theorem filter_flag_cons_neg (s : aiPostProcessSteps) (p : aiPostProcessSteps × String)
    (t : List (aiPostProcessSteps × String)) (h : ¬ s.set p.1 = true) :
    (p :: t).filter (fun q => s.set q.1) = t.filter (fun q => s.set q.1) := by
  simp [List.filter_cons, h]

theorem fmtStep_foldl_false (s : aiPostProcessSteps)
    (L : List (aiPostProcessSteps × String)) :
    ∀ acc : String,
      (L.foldl (aiPostProcessSteps.fmtStep s) (acc, false)).1 =
        acc ++ joinTail ((L.filter (fun q => s.set q.1)).map Prod.snd) := by
  induction L with
  | nil => intro acc; simp [joinTail, String.append_empty]
  | cons p t ih =>
    intro acc
    rw [List.foldl_cons]
    by_cases h : s.set p.1 = true
    · rw [show aiPostProcessSteps.fmtStep s (acc, false) p = (acc ++ " | " ++ p.2, false) by
        simp [aiPostProcessSteps.fmtStep, h, String.append_assoc]]
      rw [ih, filter_flag_cons_pos s p t h, List.map_cons, joinTail]
      simp [String.append_assoc]
    · rw [show aiPostProcessSteps.fmtStep s (acc, false) p = (acc, false) by
        simp [aiPostProcessSteps.fmtStep, h]]
      rw [ih, filter_flag_cons_neg s p t h]

theorem joinSep_cons_eq (x : String) (r : List String) :
    joinSep (x :: r) = x ++ joinTail r := by
  induction r generalizing x with
  | nil => simp [joinSep, joinTail, String.append_empty]
  | cons y t ih => simp [joinSep, joinTail, ih, String.append_assoc]

theorem fmtStep_foldl_true (s : aiPostProcessSteps)
    (L : List (aiPostProcessSteps × String)) :
    (L.foldl (aiPostProcessSteps.fmtStep s) ("", true)).1 =
      joinSep ((L.filter (fun q => s.set q.1)).map Prod.snd) := by
  cases L with
  | nil => rfl
  | cons p t =>
    rw [List.foldl_cons]
    by_cases h : s.set p.1 = true
    · rw [show aiPostProcessSteps.fmtStep s ("", true) p = (p.2, false) by
        simp [aiPostProcessSteps.fmtStep, h, String.empty_append]]
      rw [fmtStep_foldl_false, filter_flag_cons_pos s p t h, List.map_cons, joinSep_cons_eq]
    · rw [show aiPostProcessSteps.fmtStep s ("", true) p = ("", true) by
        simp [aiPostProcessSteps.fmtStep, h]]
      rw [fmtStep_foldl_true s t, filter_flag_cons_neg s p t h]

theorem aiImportFileToMesh_some {α : Type} [Inhabited α] (s : aiScene α) :
    aiImportFileToMesh (some s) = some (mergedMeshOf s) := rfl

theorem aiImportFileToMeshes_some {α : Type} [Inhabited α] (s : aiScene α) :
    aiImportFileToMeshes (some s) = some ((sceneMeshes s).map meshFromSubmesh) := rfl

theorem getElem?_isSome_iff {γ : Type} (l : List γ) (n : Nat) :
    (l[n]?).isSome = true ↔ n < l.length := by
  rcases Nat.lt_or_ge n l.length with h | h
  · simp [List.getElem?_eq_getElem h, h]
  · simp [List.getElem?_eq_none h, Nat.not_lt.mpr h]

theorem uvRead0_isSome_iff {α : Type} (m : aiMesh α) (i : Nat) :
    (uvRead0 m i).isSome = true ↔
      ((m.mTextureCoords 0).isSome = true
        ∧ i < ((m.mTextureCoords 0).getD []).length) := by
  cases h : m.mTextureCoords 0 with
  | none => simp [uvRead0, h]
  | some l => simp [uvRead0, h, getElem?_isSome_iff]

theorem releaseCount_uvReadEvents {α : Type} [Inhabited α] (s : aiScene α) :
    releaseCount (uvReadEvents s) = 0 := by
  rw [releaseCount, List.countP_eq_zero]
  intro e he
  rcases List.mem_flatMap.1 he with ⟨j, _, hm⟩
  rcases List.mem_map.1 hm with ⟨i, _, rfl⟩
  simp

/-- Claim C1: for every successfully acquired scene, the flattened
conversion processes submeshes in array order with a running vertex-index
offset that starts at 0 and increases by each submesh's vertex count after
that submesh is processed; each emitted face's three indices equal the
submesh-local indices plus the offset current for that submesh
(`specMergeFaces`), and the merged mesh's vertex count equals the sum of
all submesh vertex counts.  The hypotheses state the wellformedness of a
real acquired scene: submesh-local face indices are below their submesh's
vertex count, and the total vertex count fits in a `u32`. -/
theorem claimC1 {α : Type} [Inhabited α] (s : aiScene α)
    (hsum : sumVC (sceneMeshes s) < 4294967296)
    (hfb : ∀ m ∈ sceneMeshes s, FacesInBounds m) :
    ∃ M, aiImportFileToMesh (some s) = some M
      ∧ M.points.length = sumVC (sceneMeshes s)
      ∧ M.points = (sceneMeshes s).flatMap ptsOf
      ∧ M.faces = specMergeFaces (sceneMeshes s) 0 := by
  refine ⟨mergedMeshOf s, aiImportFileToMesh_some s, ?_, ?_, ?_⟩
  · exact mergeSubmeshes_pts_length _ 0
  · exact mergeSubmeshes_pts _ 0
  · exact mergeSubmeshes_faces_spec _ 0 (by omega) hfb

/-- Witness for C1 at the spec's `[4, 6, 3]` example scene: the merged mesh
has 13 vertices, local index 0 of submesh 2 becomes index 4, and local
index 2 of submesh 3 becomes index 12. -/
theorem claimC1_witness :
    sumVC (sceneMeshes exScene463) < 4294967296
    ∧ (∀ m ∈ sceneMeshes exScene463, FacesInBounds m)
    ∧ sumVC (sceneMeshes exScene463) = 13
    ∧ specMergeFaces (sceneMeshes exScene463) 0 =
        [MeshFace.new 4 5 6, MeshFace.new 12 10 11]
    ∧ (∃ M, aiImportFileToMesh (some exScene463) = some M
        ∧ M.points.length = sumVC (sceneMeshes exScene463)
        ∧ M.points = (sceneMeshes exScene463).flatMap ptsOf
        ∧ M.faces = specMergeFaces (sceneMeshes exScene463) 0) :=
  ⟨by decide, by decide, by decide, by decide,
    claimC1 exScene463 (by decide) (by decide)⟩

/-- Claim C2: for meshes produced by either conversion, under the
precondition that every submesh-local face index is strictly below its
owning submesh's vertex count, every face index of the produced mesh is
strictly below that mesh's total vertex count. -/
theorem claimC2 {α : Type} [Inhabited α] (s : aiScene α)
    (hfb : ∀ m ∈ sceneMeshes s, FacesInBounds m) :
    (∀ M, aiImportFileToMesh (some s) = some M →
        ∀ f ∈ M.faces,
          f.a < M.points.length ∧ f.b < M.points.length ∧ f.c < M.points.length)
    ∧ (∀ L, aiImportFileToMeshes (some s) = some L →
        ∀ M ∈ L, ∀ f ∈ M.faces,
          f.a < M.points.length ∧ f.b < M.points.length ∧ f.c < M.points.length) := by
  constructor
  · intro M hM f hf
    rw [aiImportFileToMesh_some] at hM
    cases Option.some.inj hM
    have hlen : (mergedMeshOf s).points.length = sumVC (sceneMeshes s) :=
      mergeSubmeshes_pts_length _ 0
    rcases Nat.lt_or_ge (sumVC (sceneMeshes s)) 4294967296 with hlt | hge
    · have hspec : (mergedMeshOf s).faces = specMergeFaces (sceneMeshes s) 0 :=
        mergeSubmeshes_faces_spec _ 0 (by omega) hfb
      rw [hspec] at hf
      have hb := specMergeFaces_bound (sceneMeshes s) 0 hfb f hf
      omega
    · have hb := mergeSubmeshes_faces_lt32 (sceneMeshes s) 0 f hf
      omega
  · intro L hL M hM f hf
    rw [aiImportFileToMeshes_some] at hL
    cases Option.some.inj hL
    rcases List.mem_map.1 hM with ⟨m, hm, rfl⟩
    have hb := localFaces_bound m (hfb m hm) f hf
    have hlen : (meshFromSubmesh m).points.length = m.mNumVertices := ptsOf_length m
    omega

/-- Witness for C2 at the `[4, 6, 3]` example scene. -/
theorem claimC2_witness :
    (∀ m ∈ sceneMeshes exScene463, FacesInBounds m)
    ∧ ((∀ M, aiImportFileToMesh (some exScene463) = some M →
        ∀ f ∈ M.faces,
          f.a < M.points.length ∧ f.b < M.points.length ∧ f.c < M.points.length)
      ∧ (∀ L, aiImportFileToMeshes (some exScene463) = some L →
        ∀ M ∈ L, ∀ f ∈ M.faces,
          f.a < M.points.length ∧ f.b < M.points.length ∧ f.c < M.points.length)) :=
  ⟨by decide, claimC2 exScene463 (by decide)⟩

/-- Claim C3: each conversion returns an absent result exactly when the
foreign import returned the null failure handle; on the failure path the
whole foreign-interface trace is the single failed import call (so no
foreign scene memory is dereferenced and no release happens there), and on
a successful acquisition the result is always present. -/
theorem claimC3 {α : Type} [Inhabited α] :
    (∀ imp : Option (aiScene α),
      (aiImportFileToMesh imp).isNone = imp.isNone
      ∧ (aiImportFileToMeshes imp).isNone = imp.isNone)
    ∧ (aiImportFileToMeshTr (none : Option (aiScene α))).2 =
        [FfiEvent.importCall aiImportFileToMeshSteps.value false]
    ∧ (aiImportFileToMeshesTr (none : Option (aiScene α))).2 =
        [FfiEvent.importCall aiImportFileToMeshesSteps.value false] := by
  refine ⟨?_, rfl, rfl⟩
  intro imp
  cases imp with
  | none => exact ⟨rfl, rfl⟩
  | some s => exact ⟨rfl, rfl⟩


/-- Counterexample to claim C4 as stated: on the early-return-on-failure
branch (null import handle) neither conversion invokes `aiReleaseImport` at
all — the source returns `None` before reaching the release call — so
release does not run on every exit path. -/
theorem claimC4_counterexample :
    releaseCount (aiImportFileToMeshTr (none : Option (aiScene Unit))).2 = 0
    ∧ releaseCount (aiImportFileToMeshesTr (none : Option (aiScene Unit))).2 = 0
    ∧ ¬ 1 ≤ releaseCount (aiImportFileToMeshTr (none : Option (aiScene Unit))).2 := by
  refine ⟨rfl, rfl, ?_⟩
  have h0 : releaseCount (aiImportFileToMeshTr (none : Option (aiScene Unit))).2 = 0 := rfl
  omega

/-- Claim C4 as amended: in every execution of either conversion, release
is invoked exactly once per successful acquisition, as the last
foreign-interface event before the operation returns; on the failure branch
the operation returns early without invoking release (the handle is null
there, so releasing it would have been a no-op and nothing is leaked). -/
theorem claimC4_amended {α : Type} [Inhabited α] :
    (∀ s : aiScene α,
      releaseCount (aiImportFileToMeshTr (some s)).2 = 1
      ∧ (aiImportFileToMeshTr (some s)).2.getLast? = some (FfiEvent.releaseCall false)
      ∧ releaseCount (aiImportFileToMeshesTr (some s)).2 = 1
      ∧ (aiImportFileToMeshesTr (some s)).2.getLast? = some (FfiEvent.releaseCall false))
    ∧ releaseCount (aiImportFileToMeshTr (none : Option (aiScene α))).2 = 0
    ∧ releaseCount (aiImportFileToMeshesTr (none : Option (aiScene α))).2 = 0 := by
  refine ⟨?_, rfl, rfl⟩
  intro s
  have hrel := releaseCount_uvReadEvents s
  unfold releaseCount at hrel
  have hcount : ∀ (f : Nat),
      releaseCount (FfiEvent.importCall f true ::
        (uvReadEvents s ++ [FfiEvent.releaseCall false])) = 1 := by
    intro f
    unfold releaseCount
    simp [List.countP_cons, List.countP_append, hrel]
  have hlast : ∀ (f : Nat),
      (FfiEvent.importCall f true ::
        (uvReadEvents s ++ [FfiEvent.releaseCall false])).getLast? =
        some (FfiEvent.releaseCall false) := by
    intro f
    show ((FfiEvent.importCall f true :: uvReadEvents s) ++
        [FfiEvent.releaseCall false]).getLast? = _
    exact List.getLast?_concat _
  exact ⟨hcount _, hlast _, hcount _, hlast _⟩

/-- Claim C5: both conversions unconditionally read UV channel 0 for every
vertex of every submesh — the read event is in the trace whether or not the
channel is present — and the raw read is well-defined (tracked memory)
exactly when channel 0 is non-null and the vertex index is within the
channel's array. -/
theorem claimC5 {α : Type} [Inhabited α] (s : aiScene α) (j i : Nat)
    (hj : j < s.mNumMeshes) (hi : i < (meshAt s j).mNumVertices) :
    FfiEvent.uvChannelRead j i ((meshAt s j).mTextureCoords 0).isSome
        ∈ (aiImportFileToMeshTr (some s)).2
    ∧ FfiEvent.uvChannelRead j i ((meshAt s j).mTextureCoords 0).isSome
        ∈ (aiImportFileToMeshesTr (some s)).2
    ∧ ((uvRead0 (meshAt s j) i).isSome = true ↔
        ((meshAt s j).mTextureCoords 0).isSome = true
          ∧ i < (((meshAt s j).mTextureCoords 0).getD []).length) := by
  have hmem : FfiEvent.uvChannelRead j i ((meshAt s j).mTextureCoords 0).isSome
      ∈ uvReadEvents s := by
    rw [uvReadEvents]
    refine List.mem_flatMap.2 ⟨j, List.mem_range.2 hj, ?_⟩
    rw [uvReadEventsMesh]
    exact List.mem_map.2 ⟨i, List.mem_range.2 hi, rfl⟩
  refine ⟨?_, ?_, uvRead0_isSome_iff (meshAt s j) i⟩
  · show _ ∈ FfiEvent.importCall aiImportFileToMeshSteps.value true ::
        (uvReadEvents s ++ [FfiEvent.releaseCall false])
    exact List.mem_cons_of_mem _ (List.mem_append_left _ hmem)
  · show _ ∈ FfiEvent.importCall aiImportFileToMeshesSteps.value true ::
        (uvReadEvents s ++ [FfiEvent.releaseCall false])
    exact List.mem_cons_of_mem _ (List.mem_append_left _ hmem)

/-- Witness for C5 at a scene whose only submesh has no UV channel: the read
event is still traced (with channel-present flag false), showing the read
happens without a presence check. -/
theorem claimC5_witness :
    0 < exSceneNoUV.mNumMeshes
    ∧ 0 < (meshAt exSceneNoUV 0).mNumVertices
    ∧ ((meshAt exSceneNoUV 0).mTextureCoords 0).isSome = false
    ∧ (FfiEvent.uvChannelRead 0 0 ((meshAt exSceneNoUV 0).mTextureCoords 0).isSome
          ∈ (aiImportFileToMeshTr (some exSceneNoUV)).2
      ∧ FfiEvent.uvChannelRead 0 0 ((meshAt exSceneNoUV 0).mTextureCoords 0).isSome
          ∈ (aiImportFileToMeshesTr (some exSceneNoUV)).2
      ∧ ((uvRead0 (meshAt exSceneNoUV 0) 0).isSome = true ↔
          ((meshAt exSceneNoUV 0).mTextureCoords 0).isSome = true
            ∧ 0 < (((meshAt exSceneNoUV 0).mTextureCoords 0).getD []).length)) :=
  ⟨by decide, by decide, by decide,
    claimC5 exSceneNoUV 0 0 (by decide) (by decide)⟩

/-- Claim C6: both conversions pass to the acquisition call a flag set that
includes, at minimum, `Triangulate`, `GenSmoothNormals` and `GenUVCoords`;
the import-call trace event carries exactly those baked-in flag values. -/
theorem claimC6 :
    aiImportFileToMeshSteps.set .Triangulate = true
    ∧ aiImportFileToMeshSteps.set .GenSmoothNormals = true
    ∧ aiImportFileToMeshSteps.set .GenUVCoords = true
    ∧ aiImportFileToMeshesSteps.set .Triangulate = true
    ∧ aiImportFileToMeshesSteps.set .GenSmoothNormals = true
    ∧ aiImportFileToMeshesSteps.set .GenUVCoords = true
    ∧ (∀ imp : Option (aiScene Unit),
        (aiImportFileToMeshTr imp).2.head? =
          some (FfiEvent.importCall aiImportFileToMeshSteps.value imp.isSome)
        ∧ (aiImportFileToMeshesTr imp).2.head? =
          some (FfiEvent.importCall aiImportFileToMeshesSteps.value imp.isSome)) := by
  refine ⟨by decide, by decide, by decide, by decide, by decide, by decide, ?_⟩
  intro imp
  cases imp with
  | none => exact ⟨rfl, rfl⟩
  | some s => exact ⟨rfl, rfl⟩

/-- Claim C7: for every successfully acquired scene, the per-submesh
conversion returns exactly one mesh per foreign submesh, in foreign array
order, and each output's face indices are submesh-local starting at 0: the
j-th output equals what the flattened conversion produces on a scene
containing only submesh j (where the running offset stays 0).  The
hypothesis states that the indices read from foreign memory are `u32`
values. -/
theorem claimC7 {α : Type} [Inhabited α] (s : aiScene α)
    (h32 : ∀ m ∈ sceneMeshes s, ∀ i < m.mNumFaces, ∀ k < 3,
      readIdx (faceRecAt m i) k < 4294967296) :
    ∃ L, aiImportFileToMeshes (some s) = some L
      ∧ L.length = s.mNumMeshes
      ∧ ∀ j < s.mNumMeshes,
          L.get? j = aiImportFileToMesh (some (singleScene (meshAt s j))) := by
  refine ⟨_, aiImportFileToMeshes_some s, ?_, ?_⟩
  · simp [sceneMeshes]
  · intro j hj
    have hm : meshAt s j ∈ sceneMeshes s := by
      rw [sceneMeshes]
      exact List.mem_map.2 ⟨j, List.mem_range.2 hj, rfl⟩
    have hL : ((sceneMeshes s).map meshFromSubmesh).get? j =
        some (meshFromSubmesh (meshAt s j)) := by
      rw [List.get?_eq_getElem?, List.getElem?_map, sceneMeshes, List.getElem?_map,
        List.getElem?_range hj]
      rfl
    have hr : rebasedFaces (meshAt s j) 0 = localFaces (meshAt s j) := by
      unfold rebasedFaces localFaces
      refine List.map_congr_left ?_
      intro i hi
      rw [List.mem_range] at hi
      have h0 := h32 _ hm i hi 0 (by norm_num)
      have h1 := h32 _ hm i hi 1 (by norm_num)
      have h2 := h32 _ hm i hi 2 (by norm_num)
      simp only [Nat.add_zero]
      rw [wrap32_eq_of_lt h0, wrap32_eq_of_lt h1, wrap32_eq_of_lt h2]
    have hsingle : aiImportFileToMesh (some (singleScene (meshAt s j))) =
        some (meshFromSubmesh (meshAt s j)) := by
      rw [aiImportFileToMesh_some]
      have hs1 : sceneMeshes (singleScene (meshAt s j)) = [meshAt s j] := rfl
      have hmerge : mergeSubmeshes [meshAt s j] 0 =
          (ptsOf (meshAt s j) ++ [], normalsOf (meshAt s j) ++ [],
            uvsOf (meshAt s j) ++ [], rebasedFaces (meshAt s j) 0 ++ []) := rfl
      unfold mergedMeshOf meshFromSubmesh
      rw [hs1, hmerge]
      simp [hr]
    rw [hL, hsingle]

/-- Witness for C7 at the `[4, 6, 3]` example scene. -/
theorem claimC7_witness :
    (∀ m ∈ sceneMeshes exScene463, ∀ i < m.mNumFaces, ∀ k < 3,
        readIdx (faceRecAt m i) k < 4294967296)
    ∧ (∃ L, aiImportFileToMeshes (some exScene463) = some L
        ∧ L.length = exScene463.mNumMeshes
        ∧ ∀ j < exScene463.mNumMeshes,
            L.get? j = aiImportFileToMesh (some (singleScene (meshAt exScene463 j)))) :=
  ⟨by decide, claimC7 exScene463 (by decide)⟩

/-- Claim C8: the default-constructed flag set is `None`; `None` is the
identity for union; union is associative and commutative; `(a | b) & a = a`;
and `set a b` returns true exactly when every bit of `b` is present in
`a`. -/
theorem claimC8 :
    (default : aiPostProcessSteps) = .None
    ∧ (∀ a : aiPostProcessSteps, a.bitor .None = a)
    ∧ (∀ a b c : aiPostProcessSteps, (a.bitor b).bitor c = a.bitor (b.bitor c))
    ∧ (∀ a b : aiPostProcessSteps, a.bitor b = b.bitor a)
    ∧ (∀ a b : aiPostProcessSteps, (a.bitor b).bitand a = a)
    ∧ (∀ a b : aiPostProcessSteps, a.set b = true ↔
        ∀ i, b.value.testBit i = true → a.value.testBit i = true) := by
  refine ⟨rfl, ?_, ?_, ?_, ?_, ?_⟩
  · intro a
    cases a with
    | mk x =>
      show (⟨x ||| 0⟩ : aiPostProcessSteps) = ⟨x⟩
      simp
  · intro a b c
    cases a with
    | mk x =>
      cases b with
      | mk y =>
        cases c with
        | mk z =>
          show (⟨x ||| y ||| z⟩ : aiPostProcessSteps) = ⟨x ||| (y ||| z)⟩
          rw [Nat.lor_assoc]
  · intro a b
    cases a with
    | mk x =>
      cases b with
      | mk y =>
        show (⟨x ||| y⟩ : aiPostProcessSteps) = ⟨y ||| x⟩
        rw [Nat.lor_comm]
  · intro a b
    cases a with
    | mk x =>
      cases b with
      | mk y =>
        show (⟨(x ||| y) &&& x⟩ : aiPostProcessSteps) = ⟨x⟩
        congr 1
        refine Nat.eq_of_testBit_eq ?_
        intro i
        rw [Nat.testBit_land, Nat.testBit_lor]
        cases hx : x.testBit i <;> simp [hx]
  · intro a b
    rw [aiPostProcessSteps.set_eq_true_iff, aiPostProcessSteps.land_eq_self_iff]

/-- Claim C9: the diagnostic rendering produces the string None when the
set is empty, and otherwise lists, in the fixed declaration order of the
named constants, exactly the named flags whose bit is present, joined by
the separator; and the flags listed for a union `a | b` are exactly those
present in `a` or in `b`. -/
theorem claimC9 :
    aiPostProcessSteps.debugFmt .None = "None"
    ∧ (∀ s : aiPostProcessSteps, s ≠ .None →
        aiPostProcessSteps.debugFmt s = joinSep (aiPostProcessSteps.presentNames s))
    ∧ (∀ a b : aiPostProcessSteps,
        aiPostProcessSteps.presentNames (a.bitor b) =
          (aiPostProcessSteps.flagTable.filter
            (fun p => a.set p.1 || b.set p.1)).map Prod.snd) := by
  refine ⟨rfl, ?_, ?_⟩
  · intro s hs
    rw [aiPostProcessSteps.debugFmt, if_neg hs, fmtStep_foldl_true]
    rfl
  · intro a b
    rw [aiPostProcessSteps.presentNames]
    congr 1
    refine List.filter_congr ?_
    intro p hp
    refine aiPostProcessSteps.set_of_pow2_or a b p.1 ?_
    obtain ⟨k, -, hk⟩ := aiPostProcessSteps.flagTable_pow2 p hp
    exact ⟨k, hk⟩

/-- Claim C10: every mesh returned by the flattened conversion, and every
mesh in the sequence returned by the per-submesh conversion, has its
normals and UV coordinates present, and the normals, UV and positions
arrays all have the same length. -/
theorem claimC10 {α : Type} [Inhabited α] (imp : Option (aiScene α)) (M : Mesh α)
    (h : aiImportFileToMesh imp = some M
       ∨ ∃ L, aiImportFileToMeshes imp = some L ∧ M ∈ L) :
    ∃ ns us, M.normals = some ns ∧ M.uvcoords = some us
      ∧ ns.length = M.points.length ∧ us.length = M.points.length := by
  rcases h with h | ⟨L, hL, hM⟩
  · cases imp with
    | none => simp [aiImportFileToMesh, aiImportFileToMeshTr] at h
    | some s =>
      rw [aiImportFileToMesh_some] at h
      cases Option.some.inj h
      refine ⟨(mergeSubmeshes (sceneMeshes s) 0).2.1,
        (mergeSubmeshes (sceneMeshes s) 0).2.2.1, rfl, rfl, ?_, ?_⟩
      · show (mergeSubmeshes (sceneMeshes s) 0).2.1.length =
            (mergeSubmeshes (sceneMeshes s) 0).1.length
        rw [mergeSubmeshes_normals_length, mergeSubmeshes_pts_length]
      · show (mergeSubmeshes (sceneMeshes s) 0).2.2.1.length =
            (mergeSubmeshes (sceneMeshes s) 0).1.length
        rw [mergeSubmeshes_uvs_length, mergeSubmeshes_pts_length]
  · cases imp with
    | none => simp [aiImportFileToMeshes, aiImportFileToMeshesTr] at hL
    | some s =>
      rw [aiImportFileToMeshes_some] at hL
      cases Option.some.inj hL
      rcases List.mem_map.1 hM with ⟨m, -, rfl⟩
      refine ⟨normalsOf m, uvsOf m, rfl, rfl, ?_, ?_⟩
      · show (normalsOf m).length = (ptsOf m).length
        rw [normalsOf_length, ptsOf_length]
      · show (uvsOf m).length = (ptsOf m).length
        rw [uvsOf_length, ptsOf_length]

/-- Witness for C10 at the first output of the per-submesh conversion on
the `[4, 6, 3]` example scene. -/
theorem claimC10_witness :
    (aiImportFileToMesh (some exScene463) = some (meshFromSubmesh exMesh463a)
       ∨ ∃ L, aiImportFileToMeshes (some exScene463) = some L
           ∧ meshFromSubmesh exMesh463a ∈ L)
    ∧ ∃ ns us, (meshFromSubmesh exMesh463a).normals = some ns
        ∧ (meshFromSubmesh exMesh463a).uvcoords = some us
        ∧ ns.length = (meshFromSubmesh exMesh463a).points.length
        ∧ us.length = (meshFromSubmesh exMesh463a).points.length :=
  ⟨Or.inr ⟨(sceneMeshes exScene463).map meshFromSubmesh, rfl, by decide⟩,
    claimC10 (some exScene463) (meshFromSubmesh exMesh463a)
      (Or.inr ⟨(sceneMeshes exScene463).map meshFromSubmesh, rfl, by decide⟩)⟩
